import Mathlib

/-!
Verification of the error composition and rendering engine of the
phogolabs/flaw Go package, shallowly embedded in Lean.

The embedding follows the Go sources: `src/error.go` for `Error`,
`ErrorCollector`, the free accessor functions and the JSON data map,
`src/stack.go` (the `uintptr` variant, whose `Skip` and `NewStackTrace`
are the ones the claims cite) for stack traces, and the repository
variant that defines the `New` constructor.  Machine integers are
modelled as `Int`/`Nat` (no overflow is relevant to any claim), Go `nil`
slices/maps as `[]`, Go `nil` errors as `Option`, and the runtime call
stack observed by `runtime.Callers` as an explicit list of program
counters passed to the capture functions.
-/

set_option maxHeartbeats 1000000

namespace Flaw

/-- Values stored in an Error's context map (`map[string]interface{}` in the
source); a small closed universe, since no claim depends on the value type. -/
inductive CtxVal where
  | str (s : String)
  | int (n : Int)
deriving DecidableEq

/-- A stack frame of the `uintptr` variant of `src/stack.go`
(`type StackFrame uintptr`): a raw program counter. -/
abbrev StackFrame := Nat

/-- `StackTrace` is a stack of StackFrames, innermost first. -/
abbrev StackTrace := List StackFrame

/-- A Go `error` value as far as package flaw can observe it:
`base` is a foreign error with no `Unwrap`, `As` or `Is` method
(for example `errors.New` / `fmt.Errorf` without wrapping);
`wrapped` is a foreign single-wrap error (`fmt.Errorf` with a wrap verb),
whose `Error()` string is its `msg` field;
`flaw` is a `*flaw.Error` (src/error.go) carrying its seven fields; and
`collector` is a `flaw.ErrorCollector`.  Go compares interface values for
`==`; here that is modelled by structural equality (`errBeq`), under which
two equal model values stand for the same Go error value. -/
inductive GoErr where
  | base (msg : String)
  | wrapped (msg : String) (inner : GoErr)
  | flaw (code status : Int) (msg : String) (details : List String)
      (stack : StackTrace) (context : List (String × CtxVal)) (reason : Option GoErr)
  | collector (children : List GoErr)

mutual

/-- Structural (Go `==`) equality on modelled error values. -/
def errBeq : GoErr → GoErr → Bool
  | .base m, .base m' => m == m'
  | .wrapped m i, .wrapped m' i' => m == m' && errBeq i i'
  | .flaw c s m d st ctx r, .flaw c' s' m' d' st' ctx' r' =>
      c == c' && s == s' && m == m' && d == d' && st == st' && ctx == ctx' && optErrBeq r r'
  | .collector cs, .collector cs' => listErrBeq cs cs'
  | _, _ => false

/-- `errBeq` lifted to optional errors. -/
def optErrBeq : Option GoErr → Option GoErr → Bool
  | none, none => true
  | some x, some y => errBeq x y
  | _, _ => false

/-- `errBeq` lifted elementwise to lists of errors. -/
def listErrBeq : List GoErr → List GoErr → Bool
  | [], [] => true
  | x :: xs, y :: ys => errBeq x y && listErrBeq xs ys
  | _, _ => false

end

/-- Whether the dynamic type of the error is comparable in Go's sense:
every modelled error type is comparable except `ErrorCollector`,
which is a slice type. -/
def comparableGo : GoErr → Bool
  | .collector _ => false
  | _ => true

/-- Whether the error's dynamic type is `ErrorCollector` (the type switch in
`ErrorCollector.Is`, src/error.go line 445). -/
def isCollector : GoErr → Bool
  | .collector _ => true
  | _ => false

/-- The single `Unwrap` step Go's `errors` package uses:
`(*Error).Unwrap` returns `reason` (src/error.go line 206),
a foreign wrap error unwraps to its inner error, and
`ErrorCollector.Unwrap` (src/error.go line 493) returns the sole child
when the length is exactly one. -/
def unwrapGo : GoErr → Option GoErr
  | .base _ => none
  | .wrapped _ i => some i
  | .flaw _ _ _ _ _ _ r => r
  | .collector cs => if cs.length == 1 then cs.head? else none

/-- `ErrorCollector.Is` turns a non-collector target into the one-element
collector `[target]` before comparing (src/error.go lines 445-449). -/
def itemsOf (target : GoErr) : List GoErr :=
  match target with
  | .collector cs => cs
  | _ => [target]

mutual

/-- `errors.Is(err, target)` from the Go standard library, specialised to the
error universe of this package: at every step of the unwrap chain it first
compares with `==` (when target's type is comparable), then consults the
`Is(error) bool` method (only `ErrorCollector` has one), then unwraps.
The unwrap step is written out per constructor so that the recursion is
visibly well-founded; `errorsIs_unwrap_loop` below proves it equal to the
standard-library loop formulated with `unwrapGo`. -/
def errorsIs (err target : GoErr) : Bool :=
  (comparableGo target && errBeq err target) ||
  (match err with
   | .collector cs =>
      collectorIs cs target ||
      (match cs with
       | [c] => errorsIs c target
       | _ => false)
   | .wrapped _ inner => errorsIs inner target
   | .flaw _ _ _ _ _ _ (some r) => errorsIs r target
   | _ => false)
termination_by sizeOf err + sizeOf target + 3
decreasing_by all_goals (simp_wf <;> omega)

/-- `ErrorCollector.Is` (src/error.go lines 444-462): element count must
match and every child must chain-match the corresponding target item. -/
def collectorIs (errs : List GoErr) (target : GoErr) : Bool :=
  errs.length == (itemsOf target).length && pairwiseIs errs (itemsOf target)
termination_by sizeOf errs + sizeOf target + 3
decreasing_by
  simp_wf
  have h : sizeOf (itemsOf target) < sizeOf target + 3 := by
    cases target <;> simp [itemsOf] <;> omega
  omega

/-- The element-wise `errors.Is` loop inside `ErrorCollector.Is`
(src/error.go lines 455-459); only ever called on lists of equal length. -/
def pairwiseIs : List GoErr → List GoErr → Bool
  | [], _ => true
  | _, [] => true
  | x :: xs, y :: ys => errorsIs x y && pairwiseIs xs ys
termination_by xs ys => sizeOf xs + sizeOf ys
decreasing_by
  · simp_wf
    have h1 : 0 < sizeOf xs := by cases xs <;> simp
    have h2 : 0 < sizeOf ys := by cases ys <;> simp
    omega
  · simp_wf; omega

end

/-- `*flaw.Error` (src/error.go lines 47-55) as a record.  `Map{}` and nil
slices are both `[]`; a nil `reason` is `none`. -/
structure Error where
  code : Int
  status : Int
  msg : String
  details : List String
  stack : StackTrace
  context : List (String × CtxVal)
  reason : Option GoErr

/-- The `GoErr` view of a `*flaw.Error` value. -/
def Error.toGoErr (e : Error) : GoErr :=
  .flaw e.code e.status e.msg e.details e.stack e.context e.reason

mutual

/-- `errors.As(err, &errx)` from the Go standard library with target type
`**flaw.Error`, returning the found `*Error` (src/error.go line 71 uses
exactly this call): succeed on a `*Error`, otherwise consult the
`As(interface\x7b\x7d) bool` method (only `ErrorCollector` has one, scanning its
children in order, src/error.go lines 477-485), otherwise unwrap and repeat
(for a one-element collector the unwrap step is redundant after the scan,
but is kept to mirror the loop). -/
def errorsAs : GoErr → Option Error
  | .flaw c s m d st ctx r => some ⟨c, s, m, d, st, ctx, r⟩
  | .wrapped _ i => errorsAs i
  | .base _ => none
  | .collector cs =>
      match firstAs cs with
      | some e => some e
      | none =>
        match cs with
        | [c] => errorsAs c
        | _ => none
termination_by err => sizeOf err
decreasing_by all_goals (simp_wf <;> omega)

/-- `ErrorCollector.As` (src/error.go lines 477-485): first child on which
`errors.As` succeeds. -/
def firstAs : List GoErr → Option Error
  | [] => none
  | c :: cs =>
      match errorsAs c with
      | some e => some e
      | none => firstAs cs
termination_by cs => sizeOf cs
decreasing_by all_goals (simp_wf <;> omega)

end

/-- Does the unwrap chain of `err` (the error itself followed by repeated
single-step `Unwrap`, the spec's notion of chain) contain a `*flaw.Error`? -/
def chainContainsError : GoErr → Bool
  | .flaw _ _ _ _ _ _ _ => true
  | .wrapped _ i => chainContainsError i
  | .base _ => false
  | .collector cs =>
      match cs with
      | [c] => chainContainsError c
      | _ => false
termination_by err => sizeOf err
decreasing_by all_goals (simp_wf <;> omega)

/-! ## Rendering (compact mode)

`Error.Format` with verb `v` and no `+` flag (src/error.go lines 239-268):
`format.NewState` writes straight through to the underlying writer when the
`+` flag is absent, so the produced text is a plain string and the running
`Size()` of the formatter is the length of what was written so far.
The `title` helper (src/error.go lines 338-354) is `writeTitle` below. -/

/-- `(*Error).title` in compact mode: a separating space when something was
already written (`formatter.Size() > 0`), the label, and a trailing space. -/
def writeTitle (s label : String) : String :=
  (if 0 < s.length then s ++ " " else s) ++ label ++ " "

/-- Comma-space separated items, as written by the `formatSlice` helpers. -/
def joinComma : List String → String
  | [] => ""
  | [x] => x
  | x :: xs => x ++ ", " ++ joinComma xs

/-- `StringSlice.formatSlice` (src/format.go): bracketed comma-space list. -/
def sliceStr (items : List String) : String :=
  "[" ++ joinComma items ++ "]"

/-- The body of `Error.Format` for verb `v` without the `+` flag, given the
already rendered cause string: fields appear in the order code, message,
details, cause; the stack block is guarded by `state.Flag('+')` and never
appears.  `x.details != nil` and `x.reason != nil` become `≠ []` / `≠ none`
(nil and empty coincide for every reachable details slice, which is either
nil or built by append). -/
def flawCompact (code : Int) (msg : String) (details : List String)
    (causeStr : Option String) : String :=
  let s := ""
  let s := if code ≠ 0 then writeTitle s "code:" ++ toString code else s
  let s := if msg ≠ "" then writeTitle s "message:" ++ msg else s
  let s := if details ≠ [] then writeTitle s "details:" ++ sliceStr details else s
  match causeStr with
  | some r => writeTitle s "cause:" ++ r
  | none => s

mutual

/-- The string `fmt.Sprintf("%v", err)` produces for a modelled error, which
for every modelled error kind coincides with its `Error()` string:
a `*flaw.Error` formats via `Error.Format` verb `v` (and `(*Error).Error` is
defined as exactly that `Sprintf`, src/error.go lines 211-213), an
`ErrorCollector` via its `formatSlice` (src/error.go lines 423-435), and a
foreign error prints its message. -/
def errString : GoErr → String
  | .base m => m
  | .wrapped m _ => m
  | .flaw c _ m d _ _ r =>
      flawCompact c m d
        (match r with
         | some x => some (errString x)
         | none => none)
  | .collector cs => "[" ++ joinErrV cs ++ "]"

/-- The children of a collector rendered with `%v` and joined by `, `. -/
def joinErrV : List GoErr → String
  | [] => ""
  | [x] => errString x
  | x :: xs => errString x ++ ", " ++ joinErrV xs

end

/-- `(*Error).Error` (src/error.go lines 211-213): `fmt.Sprintf("%v", x)`. -/
def Error.ErrorString (x : Error) : String :=
  errString x.toGoErr

/-! ## The JSON data map -/

/-- Values a `dictionary` entry can hold after `Error.data` builds it. -/
inductive JVal where
  | int (n : Int)
  | str (s : String)
  | strs (l : List String)
  | stackV (s : StackTrace)
  | errV (e : GoErr)
  | ctx (v : CtxVal)

/-- The `dictionary` type (`map[string]interface\x7b\x7d`), modelled as an
association list with at most one entry per key. -/
abbrev Dict := List (String × JVal)

/-- Go map assignment `m[k] = v`: replace the entry if the key is present,
otherwise add it. -/
def dictSet (m : Dict) (k : String) (v : JVal) : Dict :=
  if m.any (fun p => p.1 == k) then
    m.map (fun p => if p.1 == k then (k, v) else p)
  else
    m ++ [(k, v)]

/-- Key lookup in a `dictionary`. -/
def dictGet (m : Dict) (k : String) : Option JVal :=
  (m.find? (fun p => p.1 == k)).map Prod.snd

/-- Key membership in a `dictionary`. -/
def dictHasKey (m : Dict) (k : String) : Bool :=
  m.any (fun p => p.1 == k)

/-- ASCII lower-casing of one character. -/
def lowerChar (c : Char) : Char :=
  if c.isUpper then Char.ofNat (c.toNat + 32) else c

/-- `strings.EqualFold` restricted to how `Error.data` uses it (ASCII keys):
case-insensitive equality. -/
def eqFold (a b : String) : Bool :=
  a.data.map lowerChar == b.data.map lowerChar

def keyCode : String := "error_code"
def keyMessage : String := "error_message"
def keyDetails : String := "error_details"
def keyCause : String := "error_cause"
def keyStack : String := "error_stack"

/-- The well-known structured-encode key names (src/error.go lines 16-22). -/
def reservedKeys : List String :=
  [keyCode, keyMessage, keyDetails, keyCause, keyStack]

/-- The `set` closure inside `Error.data` (src/error.go lines 301-309):
skip the field when it case-insensitively equals one of the excluded keys. -/
def dataSetKey (keys : List String) (m : Dict) (field : String) (v : JVal) : Dict :=
  if keys.any (fun key => eqFold key field) then m else dictSet m field v

/-- `Error.data` (src/error.go lines 298-336): the well-known keys for the
set fields, in order, then the context entries.  `x.reason.Error()` is
`errString`; the nil checks on `details` and `stack` are `≠ []`. -/
def Error.data (x : Error) (keys : List String) : Dict :=
  let m : Dict := []
  let m := if 0 < x.code then dataSetKey keys m keyCode (.int x.code) else m
  let m := if x.msg ≠ "" then dataSetKey keys m keyMessage (.str x.msg) else m
  let m := if 0 < x.details.length then dataSetKey keys m keyDetails (.strs x.details) else m
  let m := match x.reason with
    | some r => dataSetKey keys m keyCause (.str (errString r))
    | none => m
  let m := if x.stack ≠ [] then dataSetKey keys m keyStack (.stackV x.stack) else m
  x.context.foldl (fun m p => dataSetKey keys m p.1 (.ctx p.2)) m

/-- Does the error's dynamic type implement `json.Marshaler`?  Both
`*flaw.Error` and `ErrorCollector` do; foreign errors here do not. -/
def isJSONMarshaler : GoErr → Bool
  | .flaw _ _ _ _ _ _ _ => true
  | .collector _ => true
  | _ => false

/-- `Error.MarshalJSON` (src/error.go lines 273-283): the data map with the
stack key excluded, and the cause entry replaced by the raw nested error
when the cause itself implements `json.Marshaler`. -/
def Error.MarshalJSON (x : Error) : Dict :=
  let data := x.data [keyStack]
  match x.reason with
  | some r => if isJSONMarshaler r then dictSet data keyCause (.errV r) else data
  | none => data

/-- `(*Error).Context` (src/error.go lines 195-197) returns `x.data()` with
no excluded keys, not the raw context field. -/
def Error.Context (x : Error) : Dict :=
  x.data []

/-! ## Stack capture -/

/-- `runtime.Callers(skip, buf)` with a buffer of length `bufLen`, reading an
ambient call stack given as the list of program counters innermost first:
it skips `skip` entries and fills at most `bufLen`. -/
def runtimeCallers (skip bufLen : Nat) (callers : List Nat) : List Nat :=
  (callers.drop skip).take bufLen

/-- `(*stack).StackTrace` (src/stack.go lines 375-383): each captured
program counter becomes one `StackFrame`. -/
def stackToTrace (pcs : List Nat) : StackTrace :=
  pcs.map (fun pc => pc)

/-- `NewStackTrace` (src/stack.go lines 284-297): `runtime.Callers(3, pcs)`
into a 32-entry buffer, then the frame conversion. -/
def NewStackTrace (callers : List Nat) : StackTrace :=
  stackToTrace (runtimeCallers 3 32 callers)

/-- `(*StackTrace).Skip` (src/stack.go lines 299-306).  The Go method
mutates through a pointer receiver; the model returns the new value. -/
def StackTrace.Skip (stack : StackTrace) (n : Int) : StackTrace :=
  if 0 < n ∧ n < (stack.length : Int) then stack.drop n.toNat else stack

/-! ## Constructors and mutators -/

/-- `Errorf` (src/error.go lines 58-65), with the formatted message already
built; the ambient call stack is passed explicitly. -/
def Errorf (msg : String) (callers : List Nat) : Error :=
  ⟨0, 500, msg, [], NewStackTrace callers, [], none⟩

/-- `New` (the repository variant defining it, src/unnamed/part_000 lines
49-57): message, optional details, status 500, fresh stack. -/
def New (msg : String) (details : List String) (callers : List Nat) : Error :=
  ⟨0, 500, msg, details, NewStackTrace callers, [], none⟩

/-- `Wrap` (src/error.go lines 68-87): reuse the `*Error` found by
`errors.As` if there is one; otherwise build a fresh one around `err`,
with the supplied frames or a newly captured stack. -/
def Wrap (err : GoErr) (frames : List StackFrame) (callers : List Nat) : Error :=
  match errorsAs err with
  | some errx => errx
  | none =>
      ⟨0, 500, "", [],
       if frames.length = 0 then NewStackTrace callers else frames,
       [], some err⟩

/-- `Error.WithError` (src/error.go lines 90-94): copy with the cause
replaced and a re-captured stack. -/
def Error.WithError (x : Error) (err : GoErr) (callers : List Nat) : Error :=
  { x with reason := some err, stack := NewStackTrace callers }

/-- `Error.WithMessage` (src/error.go lines 97-100). -/
def Error.WithMessage (x : Error) (text : String) : Error :=
  { x with msg := text }

/-- `Error.WithDetails` (src/error.go lines 103-107): appends. -/
def Error.WithDetails (x : Error) (text : String) (details : List String) : Error :=
  { x with details := x.details ++ text :: details }

/-- `Error.WithCode` (src/error.go lines 110-113). -/
def Error.WithCode (x : Error) (code : Int) : Error :=
  { x with code := code }

/-- `Error.WithStatus` (src/error.go lines 116-119). -/
def Error.WithStatus (x : Error) (status : Int) : Error :=
  { x with status := status }

/-- `Error.WithContext` (src/error.go lines 122-129): a nil map is
normalised to an empty one. -/
def Error.WithContext (x : Error) (context : Option (List (String × CtxVal))) : Error :=
  { x with context := context.getD [] }

/-- `(*Error).Wrap` (src/error.go lines 200-203), the in-place mutator,
modelled as returning the updated value. -/
def Error.Wrap (x : Error) (err : GoErr) (callers : List Nat) : Error :=
  { x with reason := some err, stack := NewStackTrace callers }

/-- `(*Error).Code` (src/error.go lines 132-134). -/
def Error.Code (x : Error) : Int := x.code

/-- `(*Error).Status` (src/error.go lines 137-139). -/
def Error.Status (x : Error) : Int := x.status

/-- `(*Error).Message` (src/error.go lines 142-144). -/
def Error.Message (x : Error) : String := x.msg

/-- `(*Error).Details` (src/error.go lines 147-149). -/
def Error.Details (x : Error) : List String := x.details

/-- `(*Error).Cause` (src/error.go lines 152-154). -/
def Error.Cause (x : Error) : Option GoErr := x.reason

/-- `(*Error).Unwrap` (src/error.go lines 206-208). -/
def Error.Unwrap (x : Error) : Option GoErr := x.reason

/-! ## ErrorCollector -/

/-- `ErrorCollector` (src/error.go line 365) is a slice of errors. -/
abbrev ErrorCollector := List GoErr

/-- `ErrorCollector.Unwrap` (src/error.go lines 493-502): the sole child
when the length is exactly one, nil otherwise. -/
def ErrorCollector.Unwrap (errs : ErrorCollector) : Option GoErr :=
  if errs.length = 1 then errs.head? else none

/-- `ErrorCollector.Wrap` (src/error.go lines 488-490): append. -/
def ErrorCollector.Wrap (errs : ErrorCollector) (err : GoErr) : ErrorCollector :=
  errs ++ [err]

/-! ## Free accessor functions (src/error.go lines 504-580)

Each probes the error's dynamic type for the named method; among the
modelled error types only `*flaw.Error` has any of the `Code`, `Status`,
`Cause`, `Message`, `Details` or `Context` methods. -/

/-- `Code(err)` (src/error.go lines 505-515). -/
def Code : GoErr → Int
  | .flaw c _ _ _ _ _ _ => c
  | _ => 0

/-- `Status(err)` (src/error.go lines 518-528). -/
def Status : GoErr → Int
  | .flaw _ s _ _ _ _ _ => s
  | _ => 0

/-- `Cause(err)` (src/error.go lines 531-541): the causer's cause when the
method exists (possibly nil), otherwise the error itself. -/
def Cause : GoErr → Option GoErr
  | .flaw _ _ _ _ _ _ r => r
  | e => some e

/-- `Message(err)` (src/error.go lines 544-554). -/
def Message : GoErr → String
  | .flaw _ _ m _ _ _ _ => m
  | _ => ""

/-- `Details(err)` (src/error.go lines 557-567). -/
def Details : GoErr → List String
  | .flaw _ _ _ d _ _ _ => d
  | _ => []

/-- `Context(err)` (src/error.go lines 570-580): `(*Error).Context` is the
data map, and the fallback is the empty map. -/
def Context : GoErr → Dict
  | .flaw c s m d st ctx r => Error.Context ⟨c, s, m, d, st, ctx, r⟩
  | _ => []

/-! ## Spec-side definitions for the refinement claims -/

/-- Space-separated join, following the spec's words for compact composite
rendering. -/
def joinSpace : List String → String
  | [] => ""
  | [x] => x
  | x :: xs => x ++ " " ++ joinSpace xs

/-- Modelled from the spec: the compact composite rendering described in the
spec — the space-separated concatenation of the set fields among code,
message, details and cause, each as a labelled value, in that fixed order,
with the stack never included. -/
def specCompactRender (e : Error) : String :=
  joinSpace
    ((if e.code ≠ 0 then ["code:" ++ " " ++ toString e.code] else []) ++
     (if e.msg ≠ "" then ["message:" ++ " " ++ e.msg] else []) ++
     (if e.details ≠ [] then ["details:" ++ " " ++ sliceStr e.details] else []) ++
     (match e.reason with
      | some r => ["cause:" ++ " " ++ errString r]
      | none => []))

/-! ## Helper lemmas -/

theorem string_length_eq_zero_iff (s : String) : s.length = 0 ↔ s = "" := by
  constructor
  · intro h
    cases s with
    | mk data =>
      cases data with
      | nil => rfl
      | cons c cs => simp [String.length] at h
  · intro h
    subst h
    rfl

theorem string_length_pos_iff (s : String) : 0 < s.length ↔ s ≠ "" := by
  rw [Nat.pos_iff_ne_zero]
  simp [string_length_eq_zero_iff]

theorem str_empty_append (s : String) : "" ++ s = s := by
  cases s with
  | mk data => rfl

theorem append_ne_empty_left (x y : String) (h : x ≠ "") : x ++ y ≠ "" := by
  intro hxy
  apply h
  have hlen := congrArg String.length hxy
  rw [String.length_append] at hlen
  have hx : x.length = 0 := by
    have : ("" : String).length = 0 := rfl
    omega
  exact (string_length_eq_zero_iff x).mp hx

theorem writeTitle_eq (s label : String) :
    writeTitle s label = (if s = "" then "" else s ++ " ") ++ label ++ " " := by
  unfold writeTitle
  by_cases h : s = ""
  · subst h
    simp
  · rw [if_pos ((string_length_pos_iff s).mpr h), if_neg h]

mutual

theorem errBeq_refl (x : GoErr) : errBeq x x = true := by
  cases x with
  | base m => simp [errBeq]
  | wrapped m i => simp [errBeq, errBeq_refl i]
  | flaw c s m d st ctx r => simp [errBeq, optErrBeq_refl r]
  | collector cs => simp [errBeq, listErrBeq_refl cs]

theorem optErrBeq_refl (r : Option GoErr) : optErrBeq r r = true := by
  cases r with
  | none => simp [optErrBeq]
  | some x => simp [optErrBeq, errBeq_refl x]

theorem listErrBeq_refl (cs : List GoErr) : listErrBeq cs cs = true := by
  cases cs with
  | nil => simp [listErrBeq]
  | cons x xs => simp [listErrBeq, errBeq_refl x, listErrBeq_refl xs]

end

/-- The faithfulness lemma for `errorsIs`: it satisfies the standard-library
loop equation written with the single-step `unwrapGo`. -/
theorem errorsIs_unwrap_loop (err target : GoErr) :
    errorsIs err target =
      ((comparableGo target && errBeq err target) ||
       (match err with
        | .collector cs => collectorIs cs target
        | _ => false) ||
       (match unwrapGo err with
        | some inner => errorsIs inner target
        | none => false)) := by
  cases err with
  | base m => simp [errorsIs, unwrapGo]
  | wrapped m i => simp [errorsIs, unwrapGo, Bool.or_assoc]
  | flaw c s m d st ctx r =>
      cases r with
      | none => simp [errorsIs, unwrapGo]
      | some x => simp [errorsIs, unwrapGo, Bool.or_assoc]
  | collector cs =>
      match cs with
      | [] => simp [errorsIs, unwrapGo]
      | [c] => simp [errorsIs, unwrapGo, Bool.or_assoc]
      | a :: b :: rest => simp [errorsIs, unwrapGo]

/-- `errors.As` immediately succeeds on a `*flaw.Error` and hands back the
very same value. -/
theorem errorsAs_toGoErr (e : Error) : errorsAs e.toGoErr = some e := by
  simp [Error.toGoErr, errorsAs]

/-- C4. For every ErrorCollector `c`, `c.Unwrap()` returns the sole child
exactly when `len(c) == 1`, and returns nil when `len(c) == 0` or
`len(c) >= 2`. -/
theorem collector_unwrap_spec (x : GoErr) (errs : ErrorCollector) :
    ErrorCollector.Unwrap [x] = some x ∧
    ErrorCollector.Unwrap ([] : ErrorCollector) = none ∧
    (2 ≤ errs.length → ErrorCollector.Unwrap errs = none) := by
  refine ⟨by simp [ErrorCollector.Unwrap], by simp [ErrorCollector.Unwrap], ?_⟩
  intro h
  simp only [ErrorCollector.Unwrap]
  rw [if_neg]
  omega

theorem collector_unwrap_spec_witness :
    ErrorCollector.Unwrap [GoErr.base "a"] = some (GoErr.base "a") ∧
    ErrorCollector.Unwrap ([] : ErrorCollector) = none ∧
    ErrorCollector.Unwrap [GoErr.base "a", GoErr.base "b"] = none := by
  obtain ⟨h1, h2, h3⟩ :=
    collector_unwrap_spec (GoErr.base "a") [GoErr.base "a", GoErr.base "b"]
  exact ⟨h1, h2, h3 (by decide)⟩

/-- C5. `Skip(n)` removes exactly the first `n` frames, keeping the order of
the rest, when `0 < n < len(s)`, and leaves the stack unchanged when
`n <= 0` or `n >= len(s)`. -/
theorem stacktrace_skip_spec (s : StackTrace) (n : Int) :
    (0 < n → n < (s.length : Int) →
      StackTrace.Skip s n = s.drop n.toNat ∧
      (StackTrace.Skip s n).length = s.length - n.toNat ∧
      ∀ i : Nat, (StackTrace.Skip s n)[i]? = s[i + n.toNat]?) ∧
    (n ≤ 0 ∨ (s.length : Int) ≤ n → StackTrace.Skip s n = s) := by
  constructor
  · intro h1 h2
    have hif : StackTrace.Skip s n = s.drop n.toNat := by
      simp only [StackTrace.Skip]
      rw [if_pos ⟨h1, h2⟩]
    refine ⟨hif, ?_, ?_⟩
    · rw [hif, List.length_drop]
    · intro i
      rw [hif]
      rw [List.getElem?_drop]
      rw [Nat.add_comm]
  · intro h
    simp only [StackTrace.Skip]
    rw [if_neg]
    rintro ⟨h1, h2⟩
    rcases h with h | h
    · omega
    · omega

theorem stacktrace_skip_spec_witness :
    StackTrace.Skip [10, 20, 30] 1 = [20, 30] ∧
    StackTrace.Skip [10, 20, 30] 0 = [10, 20, 30] ∧
    StackTrace.Skip [10, 20, 30] 3 = [10, 20, 30] := by
  refine ⟨?_, ?_, ?_⟩
  · have h := (stacktrace_skip_spec [10, 20, 30] 1).1 (by decide) (by decide)
    rw [h.1]
    decide
  · exact (stacktrace_skip_spec [10, 20, 30] 0).2 (by left; decide)
  · exact (stacktrace_skip_spec [10, 20, 30] 3).2 (by right; decide)

/-- C6. The stack trace returned by `NewStackTrace` has length at most 32:
capture collects at most 32 return addresses starting 3 frames above the
capture call, and comes up short silently when the ambient call stack is
shallower. -/
theorem new_stack_trace_bound (callers : List Nat) :
    (NewStackTrace callers).length ≤ 32 ∧
    NewStackTrace callers = (callers.drop 3).take 32 ∧
    (callers.length ≤ 35 →
      (NewStackTrace callers).length = callers.length - 3) := by
  refine ⟨?_, ?_, ?_⟩
  · simp [NewStackTrace, stackToTrace, runtimeCallers]
  · simp [NewStackTrace, stackToTrace, runtimeCallers]
  · intro h
    simp [NewStackTrace, stackToTrace, runtimeCallers]
    omega

theorem new_stack_trace_bound_witness :
    (NewStackTrace [1, 2, 3, 4, 5, 6]).length ≤ 32 ∧
    (NewStackTrace [1, 2, 3, 4, 5, 6]).length = 3 := by
  refine ⟨(new_stack_trace_bound [1, 2, 3, 4, 5, 6]).1, ?_⟩
  have h := (new_stack_trace_bound [1, 2, 3, 4, 5, 6]).2.2 (by decide)
  rw [h]
  decide

/-- C9. Every accessor free function calls the matching method when the
error's dynamic type has one (among the modelled types only `*flaw.Error`
has any of them, and its `Context()` method returns the data map), and
otherwise returns its documented default — `0`, `0`, `""`, the empty list,
the empty map — except `Cause`, which falls back to the error itself. -/
theorem accessor_defaults (c s : Int) (m : String) (d : List String)
    (st : StackTrace) (ctx : List (String × CtxVal)) (r : Option GoErr)
    (bm wm : String) (wi : GoErr) (cs : List GoErr) :
    (Code (.flaw c s m d st ctx r) = c ∧ Code (.base bm) = 0 ∧
      Code (.wrapped wm wi) = 0 ∧ Code (.collector cs) = 0) ∧
    (Status (.flaw c s m d st ctx r) = s ∧ Status (.base bm) = 0 ∧
      Status (.wrapped wm wi) = 0 ∧ Status (.collector cs) = 0) ∧
    (Message (.flaw c s m d st ctx r) = m ∧ Message (.base bm) = "" ∧
      Message (.wrapped wm wi) = "" ∧ Message (.collector cs) = "") ∧
    (Details (.flaw c s m d st ctx r) = d ∧ Details (.base bm) = [] ∧
      Details (.wrapped wm wi) = [] ∧ Details (.collector cs) = []) ∧
    (Context (.flaw c s m d st ctx r) = Error.Context ⟨c, s, m, d, st, ctx, r⟩ ∧
      Context (.base bm) = [] ∧ Context (.wrapped wm wi) = [] ∧
      Context (.collector cs) = []) ∧
    (Cause (.flaw c s m d st ctx r) = r ∧ Cause (.base bm) = some (.base bm) ∧
      Cause (.wrapped wm wi) = some (.wrapped wm wi) ∧
      Cause (.collector cs) = some (.collector cs)) := by
  refine ⟨⟨rfl, rfl, rfl, rfl⟩, ⟨rfl, rfl, rfl, rfl⟩, ⟨rfl, rfl, rfl, rfl⟩,
    ⟨rfl, rfl, rfl, rfl⟩, ⟨rfl, rfl, rfl, rfl⟩, ⟨rfl, rfl, rfl, rfl⟩⟩

/-- C2 (amended). `Wrap` returns unchanged the `*Error` that `errors.As`
finds through the unwrap chain and collector child scans — hence wrapping
twice gives the identical value and captures no new stack — and builds a
fresh `*Error` with cause `err` and a newly captured stack only when
`errors.As` finds none. -/
theorem wrap_reuses_found_error (err : GoErr) (frames : List StackFrame)
    (callers : List Nat) :
    (∀ e, errorsAs err = some e → Wrap err frames callers = e) ∧
    (errorsAs err = none →
      Wrap err frames callers =
        ⟨0, 500, "", [],
         if frames.length = 0 then NewStackTrace callers else frames,
         [], some err⟩) ∧
    (∀ frames2 callers2,
      Wrap (Error.toGoErr (Wrap err frames callers)) frames2 callers2 =
        Wrap err frames callers) := by
  refine ⟨?_, ?_, ?_⟩
  · intro e he
    simp [Wrap, he]
  · intro he
    simp [Wrap, he]
  · intro frames2 callers2
    conv in Wrap (Error.toGoErr _) _ _ => rw [Wrap]
    rw [errorsAs_toGoErr]

theorem wrap_reuses_found_error_witness :
    Wrap (Error.toGoErr ⟨7, 500, "boom", [], [1, 2], [], none⟩) [] [9, 8, 7, 6] =
      ⟨7, 500, "boom", [], [1, 2], [], none⟩ ∧
    Wrap (.base "oh no") [] [9, 8, 7, 6] =
      ⟨0, 500, "", [], [6], [], some (.base "oh no")⟩ := by
  constructor
  · exact (wrap_reuses_found_error _ [] [9, 8, 7, 6]).1 _
      (by simp [Error.toGoErr, errorsAs])
  · have h := (wrap_reuses_found_error (.base "oh no") [] [9, 8, 7, 6]).2.1
      (by simp [errorsAs])
    rw [h]
    simp [NewStackTrace, runtimeCallers, stackToTrace]

/-- C2 counterexample. The claim keys reuse on the cause chain; but for a
two-element collector holding a `*Error`, the chain (which stops at the
collector, whose `Unwrap` is nil for two children) contains no `*Error`,
yet `Wrap` still returns the embedded `*Error` found by the collector's
`As` scan instead of building a fresh wrapper around the collector. -/
theorem wrap_chain_counterexample :
    chainContainsError
      (.collector [Error.toGoErr ⟨7, 500, "boom", [], [1, 2], [], none⟩,
        .base "b"]) = false ∧
    Wrap (.collector [Error.toGoErr ⟨7, 500, "boom", [], [1, 2], [], none⟩,
        .base "b"]) [] [] =
      ⟨7, 500, "boom", [], [1, 2], [], none⟩ ∧
    (⟨7, 500, "boom", [], [1, 2], [], none⟩ : Error).reason ≠
      some (.collector [Error.toGoErr ⟨7, 500, "boom", [], [1, 2], [], none⟩,
        .base "b"]) := by
  refine ⟨?_, ?_, ?_⟩
  · simp [chainContainsError]
  · simp [Wrap, errorsAs, firstAs, Error.toGoErr]
  · simp

/-- C8 (amended). Each mutator is a value copy that changes the requested
field and carries every other raw field over from the receiver — except
that `WithError` also re-captures the stack, `WithDetails` appends, and
`WithContext` normalises nil to an empty map.  (The `Context()` view is not
preserved; see the counterexample.) -/
theorem mutators_value_copy (e : Error) (m text : String) (ds : List String)
    (c s : Int) (err : GoErr) (callers : List Nat)
    (ctx : Option (List (String × CtxVal))) :
    ((e.WithMessage m).code = e.code ∧ (e.WithMessage m).status = e.status ∧
     (e.WithMessage m).details = e.details ∧ (e.WithMessage m).stack = e.stack ∧
     (e.WithMessage m).context = e.context ∧ (e.WithMessage m).reason = e.reason ∧
     (e.WithMessage m).msg = m) ∧
    ((e.WithCode c).status = e.status ∧ (e.WithCode c).msg = e.msg ∧
     (e.WithCode c).details = e.details ∧ (e.WithCode c).stack = e.stack ∧
     (e.WithCode c).context = e.context ∧ (e.WithCode c).reason = e.reason ∧
     (e.WithCode c).code = c) ∧
    ((e.WithStatus s).code = e.code ∧ (e.WithStatus s).msg = e.msg ∧
     (e.WithStatus s).details = e.details ∧ (e.WithStatus s).stack = e.stack ∧
     (e.WithStatus s).context = e.context ∧ (e.WithStatus s).reason = e.reason ∧
     (e.WithStatus s).status = s) ∧
    ((e.WithError err callers).code = e.code ∧
     (e.WithError err callers).status = e.status ∧
     (e.WithError err callers).msg = e.msg ∧
     (e.WithError err callers).details = e.details ∧
     (e.WithError err callers).context = e.context ∧
     (e.WithError err callers).reason = some err ∧
     (e.WithError err callers).stack = NewStackTrace callers) ∧
    ((e.WithContext ctx).code = e.code ∧ (e.WithContext ctx).status = e.status ∧
     (e.WithContext ctx).msg = e.msg ∧ (e.WithContext ctx).details = e.details ∧
     (e.WithContext ctx).stack = e.stack ∧ (e.WithContext ctx).reason = e.reason ∧
     (e.WithContext ctx).context = ctx.getD []) ∧
    ((e.WithDetails text ds).code = e.code ∧
     (e.WithDetails text ds).status = e.status ∧
     (e.WithDetails text ds).msg = e.msg ∧
     (e.WithDetails text ds).stack = e.stack ∧
     (e.WithDetails text ds).context = e.context ∧
     (e.WithDetails text ds).reason = e.reason ∧
     (e.WithDetails text ds).details = e.details ++ text :: ds) := by
  refine ⟨⟨rfl, rfl, rfl, rfl, rfl, rfl, rfl⟩, ⟨rfl, rfl, rfl, rfl, rfl, rfl, rfl⟩,
    ⟨rfl, rfl, rfl, rfl, rfl, rfl, rfl⟩, ⟨rfl, rfl, rfl, rfl, rfl, rfl, rfl⟩,
    ⟨rfl, rfl, rfl, rfl, rfl, rfl, rfl⟩, ⟨rfl, rfl, rfl, rfl, rfl, rfl, rfl⟩⟩

/-- C8 counterexample. `f.Context() == e.Context()` fails for
`f := e.WithMessage(m)` with a changed message: `(*Error).Context` returns
the data map, which contains the message under `error_message`. -/
theorem with_message_context_counterexample :
    dictGet ((Error.WithMessage ⟨0, 500, "a", [], [], [], none⟩ "b").Context)
      keyMessage = some (.str "b") ∧
    dictGet ((⟨0, 500, "a", [], [], [], none⟩ : Error).Context)
      keyMessage = some (.str "a") ∧
    (Error.WithMessage ⟨0, 500, "a", [], [], [], none⟩ "b").Context ≠
      (⟨0, 500, "a", [], [], [], none⟩ : Error).Context := by
  refine ⟨rfl, rfl, ?_⟩
  intro h
  have h2 : dictGet ((Error.WithMessage ⟨0, 500, "a", [], [], [], none⟩ "b").Context)
      keyMessage =
      dictGet ((⟨0, 500, "a", [], [], [], none⟩ : Error).Context) keyMessage := by
    rw [h]
  have h3 : some (JVal.str "b") = some (JVal.str "a") := h2
  injection h3 with h4
  injection h4 with h5
  exact absurd h5 (by decide)

theorem comparableGo_of_not_collector (x : GoErr) (h : isCollector x = false) :
    comparableGo x = true := by
  cases x <;> simp_all [isCollector, comparableGo]

theorem itemsOf_of_not_collector (x : GoErr) (h : isCollector x = false) :
    itemsOf x = [x] := by
  cases x <;> simp_all [isCollector, itemsOf]

theorem pairwiseIs_iff_forall2 (xs ys : List GoErr) (h : xs.length = ys.length) :
    (pairwiseIs xs ys = true ↔
      List.Forall₂ (fun a b => errorsIs a b = true) xs ys) := by
  induction xs generalizing ys with
  | nil =>
      cases ys with
      | nil => simp [pairwiseIs]
      | cons y ys => simp at h
  | cons x xs ih =>
      cases ys with
      | nil => simp at h
      | cons y ys =>
          have hlen : xs.length = ys.length := by simpa using h
          simp [pairwiseIs, List.forall₂_cons, ih ys hlen]

theorem collectorIs_singleton (x : GoErr) (h : isCollector x = false) :
    collectorIs [x] x = true := by
  rw [collectorIs, itemsOf_of_not_collector x h]
  have hx : errorsIs x x = true := by
    cases x with
    | base m => simp [errorsIs, comparableGo, errBeq_refl]
    | wrapped m i => simp [errorsIs, comparableGo, errBeq_refl]
    | flaw c s m d st ctx r =>
        cases r <;> simp [errorsIs, comparableGo, errBeq_refl]
    | collector cs => simp [isCollector] at h
  simp [pairwiseIs, hx]

/-- C3 (amended). `ErrorCollector.Is(target)` holds only when the element
count matches the target's items (the target's own children when it is a
collector, the one-element wrapping of it otherwise) and every child
chain-matches the corresponding item; consequently a single-element
collector `[x]` matches `x` whenever `x` is not itself a collector, and two
collectors of different lengths never match. -/
theorem collector_is_spec (errs : List GoErr) (target x : GoErr)
    (cs cs' : List GoErr) :
    (collectorIs errs target = true →
      errs.length = (itemsOf target).length ∧
      List.Forall₂ (fun a b => errorsIs a b = true) errs (itemsOf target)) ∧
    (isCollector target = false → itemsOf target = [target]) ∧
    (isCollector x = false → collectorIs [x] x = true) ∧
    (cs.length ≠ cs'.length → collectorIs cs (.collector cs') = false) := by
  refine ⟨?_, fun h => itemsOf_of_not_collector target h,
    fun h => collectorIs_singleton x h, ?_⟩
  · intro h
    rw [collectorIs] at h
    rw [Bool.and_eq_true] at h
    obtain ⟨h1, h2⟩ := h
    have h1' : errs.length = (itemsOf target).length := by simpa using h1
    exact ⟨h1', (pairwiseIs_iff_forall2 _ _ h1').mp h2⟩
  · intro hne
    rw [collectorIs]
    have : (cs.length == (itemsOf (GoErr.collector cs')).length) = false := by
      simp [itemsOf]
      omega
    rw [this]
    rfl

theorem collector_is_spec_witness :
    collectorIs [GoErr.base "a"] (GoErr.base "a") = true ∧
    collectorIs [GoErr.base "a"]
      (GoErr.collector [GoErr.base "a", GoErr.base "b"]) = false ∧
    List.Forall₂ (fun a b => errorsIs a b = true)
      [GoErr.base "a"] (itemsOf (GoErr.base "a")) := by
  have h := collector_is_spec [GoErr.base "a"] (GoErr.base "a") (GoErr.base "a")
    [GoErr.base "a"] [GoErr.base "a", GoErr.base "b"]
  have h3 := h.2.2.1 (by decide)
  exact ⟨h3, h.2.2.2 (by decide), (h.1 h3).2⟩

/-- C3 counterexample. A single-element collector whose sole element is
itself a two-element collector does not `Is`-match that element: the
element is unwrapped into its own children for the comparison, so the
lengths 1 and 2 disagree. -/
theorem collector_is_singleton_counterexample :
    collectorIs [GoErr.collector [GoErr.base "a", GoErr.base "b"]]
      (GoErr.collector [GoErr.base "a", GoErr.base "b"]) = false := by
  rw [collectorIs]
  simp [itemsOf]

theorem list_any_congr {α : Type} (l : List α) (p q : α → Bool)
    (h : ∀ x ∈ l, p x = q x) : l.any p = l.any q := by
  induction l with
  | nil => rfl
  | cons x xs ih =>
      simp only [List.any_cons]
      rw [h x (List.mem_cons_self _ _), ih (fun y hy => h y (List.mem_cons_of_mem _ hy))]

theorem dictHasKey_dictSet_self (m : Dict) (k : String) (v : JVal) :
    dictHasKey (dictSet m k v) k = true := by
  unfold dictHasKey dictSet
  by_cases hm : (m.any fun p => p.1 == k) = true
  · rw [if_pos hm, List.any_map]
    rw [List.any_eq_true] at hm ⊢
    obtain ⟨p, hp, hpk⟩ := hm
    exact ⟨p, hp, by simp [Function.comp, hpk]⟩
  · rw [if_neg hm, List.any_append]
    simp

theorem dictHasKey_dictSet_ne (m : Dict) (k k' : String) (v : JVal)
    (h : k' ≠ k) : dictHasKey (dictSet m k v) k' = dictHasKey m k' := by
  unfold dictHasKey dictSet
  by_cases hm : (m.any fun p => p.1 == k) = true
  · rw [if_pos hm, List.any_map]
    apply list_any_congr
    intro p hp
    simp only [Function.comp]
    by_cases hpk : (p.1 == k) = true
    · have hpk' : p.1 = k := by simpa using hpk
      rw [if_pos hpk, hpk']
    · rw [if_neg hpk]
  · rw [if_neg hm, List.any_append]
    have : ((k, v).1 == k') = false := by
      simp [Ne.symm h]
    simp [this]

theorem eqFold_refl (s : String) : eqFold s s = true := by
  simp [eqFold]

theorem dictHasKey_ctx_fold (ctx : List (String × CtxVal)) (keys : List String)
    (m : Dict) (k : String) (h : ∀ p ∈ ctx, p.1 ≠ k) :
    dictHasKey
      (ctx.foldl (fun m p => dataSetKey keys m p.1 (.ctx p.2)) m) k =
      dictHasKey m k := by
  induction ctx generalizing m with
  | nil => rfl
  | cons p ctx ih =>
      rw [List.foldl_cons]
      rw [ih _ (fun q hq => h q (List.mem_cons_of_mem _ hq))]
      unfold dataSetKey
      by_cases hex : (keys.any fun key => eqFold key p.1) = true
      · rw [if_pos hex]
      · rw [if_neg hex]
        exact dictHasKey_dictSet_ne m p.1 k _ (Ne.symm (h p (List.mem_cons_self _ _)))

/-- Evaluating the field part of `Error.data` with the stack key excluded:
the four remaining well-known keys are appended, in order, for exactly the
set fields, and the stack entry is dropped by the exclusion list. -/
theorem data_stackless_eq (e : Error) :
    e.data [keyStack] =
      e.context.foldl (fun m p => dataSetKey [keyStack] m p.1 (.ctx p.2))
        ((if 0 < e.code then [(keyCode, JVal.int e.code)] else []) ++
         (if e.msg ≠ "" then [(keyMessage, JVal.str e.msg)] else []) ++
         (if 0 < e.details.length then [(keyDetails, JVal.strs e.details)] else []) ++
         (match e.reason with
          | some r => [(keyCause, JVal.str (errString r))]
          | none => [])) := by
  have f1 : eqFold "error_stack" "error_code" = false := by decide
  have f2 : eqFold "error_stack" "error_message" = false := by decide
  have f3 : eqFold "error_stack" "error_details" = false := by decide
  have f4 : eqFold "error_stack" "error_cause" = false := by decide
  have f5 : eqFold "error_stack" "error_stack" = true := by decide
  unfold Error.data
  by_cases hc : 0 < e.code <;> by_cases hm : e.msg ≠ "" <;>
    by_cases hd : 0 < e.details.length <;> cases hr : e.reason <;>
    by_cases hs : e.stack ≠ [] <;>
    simp [hc, hm, hd, hs, dataSetKey, dictSet, f1, f2, f3, f4, f5,
      keyCode, keyMessage, keyDetails, keyCause, keyStack]

/-- C1 (amended). For every Error whose context avoids the reserved keys
(case-insensitively), the JSON structured encoding emits `error_code`,
`error_message`, `error_details` and `error_cause` exactly for the fields
that are set (positive code, non-empty message, non-empty details, non-nil
cause), but never emits `error_stack` — the stack key is excluded from the
JSON encoding even when the captured stack is non-empty; an Error with only
code and message set encodes with only `error_code` and `error_message`. -/
theorem marshalJSON_wellknown_keys (e : Error)
    (hctx : ∀ p ∈ e.context, ∀ k ∈ reservedKeys, eqFold k p.1 = false) :
    (dictHasKey e.MarshalJSON keyCode = true ↔ 0 < e.code) ∧
    (dictHasKey e.MarshalJSON keyMessage = true ↔ e.msg ≠ "") ∧
    (dictHasKey e.MarshalJSON keyDetails = true ↔ e.details ≠ []) ∧
    (dictHasKey e.MarshalJSON keyCause = true ↔ e.reason ≠ none) ∧
    dictHasKey e.MarshalJSON keyStack = false ∧
    (∀ (code : Int) (msg : String) (stack : StackTrace), 0 < code → msg ≠ "" →
      Error.MarshalJSON ⟨code, 500, msg, [], stack, [], none⟩ =
        [(keyCode, .int code), (keyMessage, .str msg)]) := by
  have hne : ∀ k ∈ reservedKeys, ∀ p ∈ e.context, p.1 ≠ k := by
    intro k hk p hp heq
    have hfold := hctx p hp k hk
    rw [heq] at hfold
    rw [eqFold_refl] at hfold
    exact Bool.true_eq_false.mp hfold
  have hdata : ∀ k ∈ reservedKeys,
      dictHasKey (e.data [keyStack]) k =
        dictHasKey
          ((if 0 < e.code then [(keyCode, JVal.int e.code)] else []) ++
           (if e.msg ≠ "" then [(keyMessage, JVal.str e.msg)] else []) ++
           (if 0 < e.details.length then [(keyDetails, JVal.strs e.details)] else []) ++
           (match e.reason with
            | some r => [(keyCause, JVal.str (errString r))]
            | none => [])) k := by
    intro k hk
    rw [data_stackless_eq e]
    exact dictHasKey_ctx_fold _ _ _ _ (hne k hk)
  have hbase : ∀ k,
      dictHasKey
          ((if 0 < e.code then [(keyCode, JVal.int e.code)] else []) ++
           (if e.msg ≠ "" then [(keyMessage, JVal.str e.msg)] else []) ++
           (if 0 < e.details.length then [(keyDetails, JVal.strs e.details)] else []) ++
           (match e.reason with
            | some r => [(keyCause, JVal.str (errString r))]
            | none => [])) k =
        ((keyCode == k && decide (0 < e.code)) ||
         (keyMessage == k && decide (e.msg ≠ "")) ||
         (keyDetails == k && decide (0 < e.details.length)) ||
         (keyCause == k && e.reason.isSome)) := by
    intro k
    by_cases hc : 0 < e.code <;> by_cases hm : e.msg ≠ "" <;>
      by_cases hd : 0 < e.details.length <;> cases hr : e.reason <;>
      simp [hc, hm, hd, dictHasKey, List.any_append, Bool.or_assoc]
  have hmarshal : ∀ k ∈ reservedKeys,
      dictHasKey e.MarshalJSON k =
        ((keyCause == k && e.reason.isSome) ||
          dictHasKey (e.data [keyStack]) k) := by
    intro k hk
    unfold Error.MarshalJSON
    cases hr : e.reason with
    | none => simp
    | some r =>
        by_cases hj : isJSONMarshaler r = true
        · simp only [hj, if_pos]
          by_cases hkc : k = keyCause
          · subst hkc
            rw [dictHasKey_dictSet_self]
            simp
          · rw [dictHasKey_dictSet_ne _ _ _ _ hkc]
            have : (keyCause == k) = false := by
              simp [beq_eq_false_iff_ne, Ne.symm hkc]
            simp [this]
        · rw [Bool.not_eq_true] at hj
          simp only [hj, Bool.false_eq_true, if_false]
          rw [hdata k hk, hbase k]
          cases hkc : (keyCause == k) <;> simp [hr, hkc, Bool.or_assoc]
  have heval : ∀ k ∈ reservedKeys,
      dictHasKey e.MarshalJSON k =
        ((keyCode == k && decide (0 < e.code)) ||
         (keyMessage == k && decide (e.msg ≠ "")) ||
         (keyDetails == k && decide (0 < e.details.length)) ||
         (keyCause == k && e.reason.isSome)) := by
    intro k hk
    rw [hmarshal k hk, hdata k hk, hbase k]
    cases h1 : (keyCode == k) <;> cases h2 : (keyMessage == k) <;>
      cases h3 : (keyDetails == k) <;> cases h4 : (keyCause == k) <;>
      cases h5 : e.reason.isSome <;> simp [h1, h2, h3, h4, h5]
  refine ⟨?_, ?_, ?_, ?_, ?_, ?_⟩
  · rw [heval keyCode (by simp [reservedKeys])]
    simp [keyCode, keyMessage, keyDetails, keyCause]
  · rw [heval keyMessage (by simp [reservedKeys])]
    simp [keyCode, keyMessage, keyDetails, keyCause]
  · rw [heval keyDetails (by simp [reservedKeys])]
    simp [keyCode, keyMessage, keyDetails, keyCause, List.length_pos]
  · rw [heval keyCause (by simp [reservedKeys])]
    simp [keyCode, keyMessage, keyDetails, keyCause, Option.isSome_iff_ne_none]
  · rw [heval keyStack (by simp [reservedKeys])]
    simp [keyCode, keyMessage, keyDetails, keyCause, keyStack]
  · intro code msg stack hcode hmsg
    unfold Error.MarshalJSON
    simp only
    rw [data_stackless_eq]
    simp [hcode, hmsg]

theorem marshalJSON_wellknown_keys_witness :
    dictHasKey
      (Error.MarshalJSON ⟨200, 500, "oh no", [], [1, 2, 3], [], none⟩)
      keyCode = true ∧
    dictHasKey
      (Error.MarshalJSON ⟨200, 500, "oh no", [], [1, 2, 3], [], none⟩)
      keyStack = false ∧
    Error.MarshalJSON ⟨200, 500, "oh no", [], [1, 2, 3], [], none⟩ =
      [(keyCode, .int 200), (keyMessage, .str "oh no")] := by
  have h := marshalJSON_wellknown_keys ⟨200, 500, "oh no", [], [1, 2, 3], [], none⟩
    (by intro p hp; simp at hp)
  exact ⟨h.1.mpr (by decide), h.2.2.2.2.1,
    h.2.2.2.2.2 200 "oh no" [1, 2, 3] (by decide) (by decide)⟩

/-- C1 counterexample. An Error with a non-empty captured stack does not
encode with an `error_stack` key: `MarshalJSON` excludes the stack key from
the data map. -/
theorem marshalJSON_stack_key_counterexample :
    (⟨0, 500, "hello", [], [1, 2, 3], [], none⟩ : Error).stack ≠ [] ∧
    dictHasKey
      (Error.MarshalJSON ⟨0, 500, "hello", [], [1, 2, 3], [], none⟩)
      keyStack = false := by
  constructor
  · simp
  · rfl

/-- C7. The scenario `New("failed").WithCode(404).WithError(causeErr)`
rendered with the composite verb in compact mode: present fields in the
fixed order code, message, cause, space separated, the unset details
omitted and the stack never included in compact mode. -/
theorem compact_render_scenario (cm : String) (cs1 cs2 : List Nat) :
    (((New "failed" [] cs1).WithCode 404).WithError (.base cm) cs2).ErrorString =
      "code: 404 message: failed cause: " ++ cm := rfl

theorem append_ne_empty_right (x y : String) (h : y ≠ "") : x ++ y ≠ "" := by
  intro hxy
  apply h
  have hlen := congrArg String.length hxy
  rw [String.length_append] at hlen
  have hy : y.length = 0 := by
    have : ("" : String).length = 0 := rfl
    omega
  exact (string_length_eq_zero_iff y).mp hy

theorem buildTitled_aux (segs : List (String × String)) (s : String)
    (hs : s ≠ "") :
    segs.foldl (fun s p => writeTitle s p.1 ++ p.2) s =
      joinSpace (s :: segs.map (fun p => p.1 ++ " " ++ p.2)) := by
  induction segs generalizing s with
  | nil => simp [joinSpace]
  | cons p segs ih =>
      rw [List.foldl_cons]
      have hstep : writeTitle s p.1 ++ p.2 = s ++ " " ++ (p.1 ++ " " ++ p.2) := by
        rw [writeTitle_eq, if_neg hs]
        simp [String.append_assoc]
      rw [hstep]
      rw [ih _ (append_ne_empty_left _ _ (append_ne_empty_left _ _ hs))]
      rw [List.map_cons]
      cases hrest : segs.map (fun p => p.1 ++ " " ++ p.2) with
      | nil => simp [joinSpace, String.append_assoc]
      | cons a l => simp [joinSpace, String.append_assoc]

theorem buildTitled_eq (segs : List (String × String)) :
    segs.foldl (fun s p => writeTitle s p.1 ++ p.2) "" =
      joinSpace (segs.map (fun p => p.1 ++ " " ++ p.2)) := by
  cases segs with
  | nil => rfl
  | cons p segs =>
      rw [List.foldl_cons]
      have hstep : writeTitle "" p.1 ++ p.2 = p.1 ++ " " ++ p.2 := by
        rw [writeTitle_eq, if_pos rfl]
        simp [String.append_assoc, str_empty_append]
      rw [hstep, List.map_cons]
      by_cases hp : p.1 ++ " " ++ p.2 = ""
      · exact absurd hp (append_ne_empty_left _ _ (append_ne_empty_right _ _ (by decide)))
      · exact buildTitled_aux segs _ hp

theorem flawCompact_eq_fold (c : Int) (m : String) (d : List String)
    (r : Option String) :
    flawCompact c m d r =
      ((if c ≠ 0 then [("code:", toString c)] else []) ++
       (if m ≠ "" then [("message:", m)] else []) ++
       (if d ≠ [] then [("details:", sliceStr d)] else []) ++
       (match r with | some x => [("cause:", x)] | none => [])).foldl
        (fun s p => writeTitle s p.1 ++ p.2) "" := by
  by_cases hc : c ≠ 0 <;> by_cases hm : m ≠ "" <;> by_cases hd : d ≠ [] <;>
    cases r <;> simp [flawCompact, hc, hm, hd]

theorem flawCompact_eq_joinSpace (c : Int) (m : String) (d : List String)
    (r : Option String) :
    flawCompact c m d r =
      joinSpace ((if c ≠ 0 then ["code:" ++ " " ++ toString c] else []) ++
                 (if m ≠ "" then ["message:" ++ " " ++ m] else []) ++
                 (if d ≠ [] then ["details:" ++ " " ++ sliceStr d] else []) ++
                 (match r with | some x => ["cause:" ++ " " ++ x] | none => [])) := by
  rw [flawCompact_eq_fold, buildTitled_eq]
  apply congrArg joinSpace
  by_cases hc : c ≠ 0 <;> by_cases hm : m ≠ "" <;> by_cases hd : d ≠ [] <;>
    cases r <;> simp [hc, hm, hd]

/-- C10 (refinement). The default string form `Error()` — defined in the
source as `fmt.Sprintf("%v", x)`, the unflagged composite rendering — is
exactly the spec's compact composite rendering: the space-separated
concatenation of the set fields among code, message, details and cause,
with the stack never included; in particular the string of an Error with
no fields set is empty. -/
theorem error_string_refines_spec (e : Error) :
    e.ErrorString = specCompactRender e ∧
    Error.ErrorString ⟨0, 0, "", [], [], [], none⟩ = "" := by
  constructor
  · show errString e.toGoErr = _
    rw [Error.toGoErr]
    simp only [specCompactRender]
    cases hr : e.reason with
    | none => simp [errString, flawCompact_eq_joinSpace]
    | some x => simp [errString, flawCompact_eq_joinSpace]
  · rfl

end Flaw
